import Mathlib

/-!
# Verification of the `subtile` PGS subtitle decoder

Shallow embedding of the PGS (Presentation Graphic Stream) decoding code of
the `subtile` repository, together with theorems settling the frozen claims
about it.

Modelling conventions:

* Bytes and machine integers are `Nat`; where Rust integer overflow can
  occur we model the release-profile wrapping semantics with an explicit
  `% 2^w` (noted at each site).  Debug builds of Rust would panic at those
  sites instead; the wrap points are commented.
* A stream reader (`BufRead + Seek` in the source) is a list of the bytes
  still ahead of the cursor plus a `fault` flag: after the listed bytes are
  exhausted, the underlying source reports an I/O error if `fault` is set
  and a clean end-of-stream otherwise.
* Fallible Rust functions return `Except`; functions that can `assert!`
  or index out of bounds return `RunResult`, whose `fatal` constructor
  models a Rust panic (assertion failure / slice-index panic).
* Decoding loops are embedded with an explicit fuel argument so that they
  stay structurally recursive and computable; the dedicated `noFuel`
  result (distinct from `fatal`) marks fuel exhaustion, and fuel
  sufficiency lemmas show that the fuel chosen by the entry points
  (`bytes.length + 1`, each loop iteration consumes a 13-byte header)
  can never run out, so `noFuel` is unreachable from the entry points.
-/

set_option autoImplicit false

namespace Subtile

/-- Result of running a piece of Rust code that may return a value,
return an error, or panic (`fatal`).  `noFuel` is only used by the
fuel-indexed embeddings of the decoding loops and is proved unreachable
for the fuel chosen by the entry points. -/
inductive RunResult (ε α : Type) where
  | ok (a : α)
  | err (e : ε)
  | fatal
  | noFuel
  deriving DecidableEq, Repr

/-- Result of running a straight-line piece of Rust code that may return
a value, return an error, or panic (`fatal`: assertion failure or
slice-index panic). -/
inductive PanicResult (ε α : Type) where
  | ok (a : α)
  | err (e : ε)
  | fatal
  deriving DecidableEq, Repr

/-- Kind of `std::io` error observed by `read_exact`: a clean end-of-file
(`ErrorKind::UnexpectedEof`) or any other read fault. -/
inductive IoErr where
  | eof
  | other
  deriving DecidableEq, Repr

/-- A buffered, seekable byte source (`BufRead + Seek`): the bytes still
ahead of the cursor, and whether the source reports an I/O fault (instead
of a clean end-of-stream) once those bytes are exhausted. -/
structure Reader where
  bytes : List Nat
  fault : Bool
  deriving DecidableEq, Repr

/-- Take exactly `n` elements from the front of a list, also returning the
remainder; `none` if fewer than `n` elements are available. -/
def readExactGo : Nat → List Nat → Option (List Nat × List Nat)
  | 0, l => some ([], l)
  | _ + 1, [] => none
  | n + 1, a :: l =>
    match readExactGo n l with
    | some (xs, rest) => some (a :: xs, rest)
    | none => none

/-- `Read::read_exact` on a buffer of length `n`: succeeds iff `n` bytes
are available; on a short read it reports `UnexpectedEof` if the source
ended cleanly and a generic fault otherwise. -/
def Reader.read_exact (r : Reader) (n : Nat) : Except IoErr (List Nat × Reader) :=
  match readExactGo n r.bytes with
  | some (xs, rest) => .ok (xs, ⟨rest, r.fault⟩)
  | none => .error (if r.fault then .other else .eof)

/-- Errors of `ReadExt` (src/pgs/mod.rs).  The `io::Error` payloads of the
source are dropped; only the variant identity matters here. -/
inductive ReadError where
  | failedReadBuffer (bufferSize : Nat)
  | failedFillBuf
  | failedSeek
  | invalidSeekValue
  deriving DecidableEq, Repr

/-- `ReadExt::skip_data` (src/pgs/mod.rs): `fill_buf` fails only when the
source faults with no bytes left; otherwise the cursor advances by
`n` positions (by `consume` when enough buffered bytes exist, by
`seek_relative` otherwise — a seek past the end leaves no bytes ahead,
which `List.drop` models by saturating). -/
def Reader.skip_data (r : Reader) (n : Nat) : Except ReadError Reader :=
  if r.bytes.isEmpty ∧ r.fault then
    .error .failedFillBuf
  else
    .ok ⟨r.bytes.drop n, r.fault⟩

/-! ## Segment type codes (src/pgs/segment.rs) -/

/-- `SegmentTypeCode` (src/pgs/segment.rs): the closed set of segment
kinds.  `endSeg` renders the source's `End` variant (`end` is a Lean
keyword). -/
inductive SegmentTypeCode where
  | pds
  | ods
  | pcs
  | wds
  | endSeg
  deriving DecidableEq, Repr

/-- `LastInSequenceFlag` (src/pgs/ods.rs lines 48-54). -/
inductive LastInSequenceFlag where
  | last
  | first
  | firstAndLast
  deriving DecidableEq, Repr

/-- `ods::Error` (src/pgs/ods.rs lines 9-46).  The `io::Error` payloads
of the source are dropped; the data payloads (invalid flag byte, flag
value, attempted buffer size) are kept. -/
inductive OdsError where
  | lastInSequenceFlagReadData
  | lastInSequenceFlagInvalidValue (value : Nat)
  | lastInSequenceFlagNotManaged (flag : LastInSequenceFlag)
  | skipObjectIdAndVerNum
  | readObjectDataLength
  | readWidth
  | readHeight
  | objectData (buffSize : Nat)
  deriving DecidableEq, Repr

/-- `TryFrom<u8> for LastInSequenceFlag` (src/pgs/ods.rs lines 55-66). -/
def LastInSequenceFlag.try_from (value : Nat) : Except OdsError LastInSequenceFlag :=
  if value = 0x40 then .ok .last
  else if value = 0x80 then .ok .first
  else if value = 0xC0 then .ok .firstAndLast
  else .error (.lastInSequenceFlagInvalidValue value)

/-- `PgsError` (src/pgs/mod.rs).  I/O payloads are dropped; data payloads
(the offending byte, the skipped segment's type code) are kept.
`pdsParse` carries no payload because `pds.rs` is absent from the
snapshot. -/
inductive PgsError where
  | io
  | odsParse (e : OdsError)
  | pdsParse
  | segmentInvalidTypeCode (value : Nat)
  | segmentFailReadHeader
  | segmentPGMissing
  | segmentSkip (typeCode : SegmentTypeCode)
  | missingImage
  | missingPalette
  deriving DecidableEq, Repr

/-- `TryFrom<u8> for SegmentTypeCode` (src/pgs/segment.rs lines 40-52). -/
def SegmentTypeCode.try_from (value : Nat) : Except PgsError SegmentTypeCode :=
  if value = 0x14 then .ok .pds
  else if value = 0x15 then .ok .ods
  else if value = 0x16 then .ok .pcs
  else if value = 0x17 then .ok .wds
  else if value = 0x80 then .ok .endSeg
  else .error (.segmentInvalidTypeCode value)

/-- `From<SegmentTypeCode> for u8` (src/pgs/segment.rs lines 53-57): the
discriminant value of each variant. -/
def SegmentTypeCode.toU8 : SegmentTypeCode → Nat
  | .pds => 0x14
  | .ods => 0x15
  | .pcs => 0x16
  | .wds => 0x17
  | .endSeg => 0x80

/-- C9: for each byte in {0x14, 0x15, 0x16, 0x17, 0x80}, `TryFrom<u8>`
succeeds and re-encoding the result yields the original byte; every byte
outside this set fails with the invalid-type-code error carrying exactly
that byte. -/
theorem claim_C9 :
    (∀ b : Nat, b ∈ [0x14, 0x15, 0x16, 0x17, 0x80] →
      ∃ c : SegmentTypeCode, SegmentTypeCode.try_from b = .ok c ∧ c.toU8 = b) ∧
    (∀ b : Nat, b ∉ [0x14, 0x15, 0x16, 0x17, 0x80] →
      SegmentTypeCode.try_from b = .error (.segmentInvalidTypeCode b)) := by
  constructor
  · intro b hb
    simp only [List.mem_cons, List.not_mem_nil, or_false] at hb
    rcases hb with rfl | rfl | rfl | rfl | rfl
    · exact ⟨.pds, by simp [SegmentTypeCode.try_from, SegmentTypeCode.toU8]⟩
    · exact ⟨.ods, by simp [SegmentTypeCode.try_from, SegmentTypeCode.toU8]⟩
    · exact ⟨.pcs, by simp [SegmentTypeCode.try_from, SegmentTypeCode.toU8]⟩
    · exact ⟨.wds, by simp [SegmentTypeCode.try_from, SegmentTypeCode.toU8]⟩
    · exact ⟨.endSeg, by simp [SegmentTypeCode.try_from, SegmentTypeCode.toU8]⟩
  · intro b hb
    simp only [List.mem_cons, List.not_mem_nil, or_false, not_or] at hb
    obtain ⟨h1, h2, h3, h4, h5⟩ := hb
    simp [SegmentTypeCode.try_from, h1, h2, h3, h4, h5]

/-- Closed witness for C9 at concrete bytes. -/
theorem claim_C9_witness :
    (∃ c : SegmentTypeCode, SegmentTypeCode.try_from 0x80 = .ok c ∧ c.toU8 = 0x80) ∧
    SegmentTypeCode.try_from 0x42 = .error (.segmentInvalidTypeCode 0x42) :=
  ⟨claim_C9.1 0x80 (by decide), claim_C9.2 0x42 (by decide)⟩

/-! ## Big-endian field helpers -/

/-- Big-endian 16-bit value from two bytes (`u16::from_be_bytes`). -/
def be16 (b0 b1 : Nat) : Nat := b0 * 256 + b1

/-- Big-endian 24-bit value from three bytes (the `u24` helper type). -/
def be24 (b0 b1 b2 : Nat) : Nat := (b0 * 256 + b1) * 256 + b2

/-- Big-endian 32-bit value from four bytes (`u32::from_be_bytes`). -/
def be32 (b0 b1 b2 b3 : Nat) : Nat := ((b0 * 256 + b1) * 256 + b2) * 256 + b3

/-- The four big-endian bytes of a 32-bit value. -/
def be32enc (v : Nat) : List Nat :=
  [v / 2 ^ 24 % 256, v / 2 ^ 16 % 256, v / 2 ^ 8 % 256, v % 256]

/-- The two big-endian bytes of a 16-bit value. -/
def be16enc (v : Nat) : List Nat := [v / 256 % 256, v % 256]

/-- The three big-endian bytes of a 24-bit value. -/
def be24enc (v : Nat) : List Nat := [v / 2 ^ 16 % 256, v / 2 ^ 8 % 256, v % 256]

theorem be32_decenc (v : Nat) (h : v < 2 ^ 32) :
    be32 (v / 2 ^ 24 % 256) (v / 2 ^ 16 % 256) (v / 2 ^ 8 % 256) (v % 256) = v := by
  simp only [be32]
  omega

theorem be16_decenc (v : Nat) (h : v < 2 ^ 16) :
    be16 (v / 256 % 256) (v % 256) = v := by
  simp only [be16]
  omega

theorem be24_decenc (v : Nat) (h : v < 2 ^ 24) :
    be24 (v / 2 ^ 16 % 256) (v / 2 ^ 8 % 256) (v % 256) = v := by
  simp only [be24]
  omega

/-! ## Segment header codec (src/pgs/segment.rs) -/

/-- `SegmentHeader` (src/pgs/segment.rs lines 84-91). -/
structure SegmentHeader where
  pts : Nat
  type_code : SegmentTypeCode
  size : Nat
  deriving DecidableEq, Repr

/-- `SegmentHeader::presentation_time` (src/pgs/segment.rs lines 94-96):
the 90 kHz presentation timestamp divided by 90, i.e. milliseconds
(`u32` flooring division). -/
def SegmentHeader.presentation_time (h : SegmentHeader) : Nat := h.pts / 90

/-- `parse_segment_header` (src/pgs/segment.rs lines 125-138) on the fixed
13-byte buffer filled by `read_header`: magic check, then big-endian
presentation timestamp, type-code validation, and size.  The decode
timestamp bytes (offsets 6-9) are ignored by the source.  The catch-all
branch is unreachable: `read_header` always supplies 13 bytes. -/
def parse_segment_header (buffer : List Nat) : Except PgsError (Option SegmentHeader) :=
  match buffer with
  | [m0, m1, p0, p1, p2, p3, _, _, _, _, tc, s0, s1] =>
    if m0 = 0x50 ∧ m1 = 0x47 then
      match SegmentTypeCode.try_from tc with
      | .ok code => .ok (some ⟨be32 p0 p1 p2 p3, code, be16 s0 s1⟩)
      | .error e => .error e
    else
      .error .segmentPGMissing
  | _ => .error .segmentPGMissing

/-- `read_header` (src/pgs/segment.rs lines 109-123): read 13 bytes; a
clean `UnexpectedEof` (which `read_exact` reports whenever fewer than 13
bytes remain before a clean end-of-stream) yields `Ok(None)`; any other
read fault yields the generic header-read-failure error. -/
def read_header (r : Reader) : Except PgsError (Option (SegmentHeader × Reader)) :=
  match r.read_exact 13 with
  | .ok (buffer, r') =>
    match parse_segment_header buffer with
    | .ok (some h) => .ok (some (h, r'))
    | .ok none => .ok none
    | .error e => .error e
  | .error .eof => .ok none
  | .error .other => .error .segmentFailReadHeader

/-! Basic lemmas about the reader primitives. -/

theorem readExactGo_append (l1 l2 : List Nat) :
    readExactGo l1.length (l1 ++ l2) = some (l1, l2) := by
  induction l1 with
  | nil => rfl
  | cons a l ih => simp [readExactGo, ih]

theorem readExactGo_of_le (n : Nat) (l : List Nat) (h : n ≤ l.length) :
    readExactGo n l = some (l.take n, l.drop n) := by
  induction n generalizing l with
  | zero => simp [readExactGo]
  | succ n ih =>
    cases l with
    | nil => simp at h
    | cons a l =>
      simp only [List.length_cons, Nat.succ_le_succ_iff] at h
      simp [readExactGo, ih l h]

theorem readExactGo_short (n : Nat) (l : List Nat) (h : l.length < n) :
    readExactGo n l = none := by
  induction n generalizing l with
  | zero => simp at h
  | succ n ih =>
    cases l with
    | nil => rfl
    | cons a l =>
      simp only [List.length_cons, Nat.succ_lt_succ_iff] at h
      simp [readExactGo, ih l h]

theorem readExactGo_some_length {n : Nat} {l xs rest : List Nat}
    (h : readExactGo n l = some (xs, rest)) :
    xs.length = n ∧ rest.length + n = l.length := by
  by_cases hle : n ≤ l.length
  · rw [readExactGo_of_le n l hle] at h
    cases h
    constructor
    · simp [List.length_take]; omega
    · simp [List.length_drop]; omega
  · rw [readExactGo_short n l (by omega)] at h
    cases h

theorem read_exact_ok_length {r : Reader} {n : Nat} {xs : List Nat} {r' : Reader}
    (h : r.read_exact n = .ok (xs, r')) :
    xs.length = n ∧ r'.bytes.length + n = r.bytes.length ∧ r'.fault = r.fault := by
  unfold Reader.read_exact at h
  cases hgo : readExactGo n r.bytes with
  | none => rw [hgo] at h; cases h
  | some p =>
    obtain ⟨ys, rest⟩ := p
    rw [hgo] at h
    cases h
    obtain ⟨h1, h2⟩ := readExactGo_some_length hgo
    exact ⟨h1, h2, rfl⟩

theorem skip_data_ok_length {r : Reader} {n : Nat} {r' : Reader}
    (h : r.skip_data n = .ok r') :
    r'.bytes.length ≤ r.bytes.length ∧ r'.fault = r.fault := by
  unfold Reader.skip_data at h
  split at h
  · cases h
  · cases h
    constructor
    · simp [List.length_drop]
    · rfl

theorem read_header_some_length {r : Reader} {h : SegmentHeader} {r' : Reader}
    (hh : read_header r = .ok (some (h, r'))) :
    r'.bytes.length + 13 = r.bytes.length ∧ r'.fault = r.fault := by
  unfold read_header at hh
  cases hre : r.read_exact 13 with
  | error e =>
    rw [hre] at hh
    cases e <;> simp_all
  | ok p =>
    obtain ⟨buffer, r''⟩ := p
    rw [hre] at hh
    obtain ⟨-, h2, h3⟩ := read_exact_ok_length hre
    cases hp : parse_segment_header buffer with
    | error e => simp [hp] at hh
    | ok o =>
      cases o with
      | none => simp [hp] at hh
      | some hd =>
        simp only [hp, Except.ok.injEq, Option.some.injEq, Prod.mk.injEq] at hh
        obtain ⟨-, rfl⟩ := hh
        exact ⟨h2, h3⟩

/-- Evaluation of `read_header` once 13 bytes are known to be available:
it hands the 13-byte buffer to `parse_segment_header` and pairs a parsed
header with the advanced reader. -/
theorem read_header_cons13 (b0 b1 b2 b3 b4 b5 b6 b7 b8 b9 b10 b11 b12 : Nat)
    (rest : List Nat) (f : Bool) :
    read_header ⟨b0 :: b1 :: b2 :: b3 :: b4 :: b5 :: b6 :: b7 :: b8 :: b9 ::
        b10 :: b11 :: b12 :: rest, f⟩ =
      match parse_segment_header [b0, b1, b2, b3, b4, b5, b6, b7, b8, b9, b10, b11, b12] with
      | .ok (some h) => .ok (some (h, ⟨rest, f⟩))
      | .ok none => .ok none
      | .error e => .error e := by
  have hgo : readExactGo 13
      (b0 :: b1 :: b2 :: b3 :: b4 :: b5 :: b6 :: b7 :: b8 :: b9 ::
        b10 :: b11 :: b12 :: rest) =
      some ([b0, b1, b2, b3, b4, b5, b6, b7, b8, b9, b10, b11, b12], rest) := by
    have h := readExactGo_append
      [b0, b1, b2, b3, b4, b5, b6, b7, b8, b9, b10, b11, b12] rest
    simpa using h
  unfold read_header Reader.read_exact
  simp only [hgo]

/-- C2 counterexample: a reader holding a single non-magic byte before a
clean end-of-stream.  `read_exact` reports `UnexpectedEof` for this short
read, which `read_header` maps to `Ok(None)` — although the reader is not
at a clean end-of-stream with zero bytes available, and although the
claim would instead require the magic-missing error for this non-empty
non-magic read. -/
theorem claim_C2_counterexample :
    read_header ⟨[0x00], false⟩ = .ok none ∧
    (Reader.mk [0x00] false).bytes ≠ [] := by
  constructor
  · rfl
  · simp

/-- C2 as amended: `read_header` returns `Ok(None)` exactly when *fewer
than 13 bytes* (not only zero) remain before a clean end-of-stream,
whatever those bytes contain; a read fault that is not a clean EOF —
including one after a short read of 0 to 12 bytes — returns the generic
header-read-failure error; a full 13-byte read whose first two bytes are
not `0x50 0x47` returns the magic-missing error; and a full 13-byte read
with valid magic but an unrecognized type-code byte at offset 10 returns
the invalid-type-code error carrying that byte. -/
theorem claim_C2_amended :
    (∀ r : Reader, r.bytes.length < 13 → r.fault = false →
      read_header r = .ok none) ∧
    (∀ r : Reader, r.bytes.length < 13 → r.fault = true →
      read_header r = .error .segmentFailReadHeader) ∧
    (∀ (m0 m1 : Nat) (l : List Nat) (f : Bool), l.length = 11 →
      ¬(m0 = 0x50 ∧ m1 = 0x47) →
      read_header ⟨m0 :: m1 :: l, f⟩ = .error .segmentPGMissing) ∧
    (∀ (p0 p1 p2 p3 d0 d1 d2 d3 tc s0 s1 : Nat) (rest : List Nat) (f : Bool),
      tc ∉ [0x14, 0x15, 0x16, 0x17, 0x80] →
      read_header ⟨0x50 :: 0x47 :: p0 :: p1 :: p2 :: p3 ::
          d0 :: d1 :: d2 :: d3 :: tc :: s0 :: s1 :: rest, f⟩ =
        .error (.segmentInvalidTypeCode tc)) := by
  refine ⟨?_, ?_, ?_, ?_⟩
  · intro r hlen hf
    unfold read_header Reader.read_exact
    rw [readExactGo_short 13 r.bytes hlen, hf]
    rfl
  · intro r hlen hf
    unfold read_header Reader.read_exact
    rw [readExactGo_short 13 r.bytes hlen, hf]
    rfl
  · intro m0 m1 l f hlen hmagic
    obtain ⟨a0, l0, rfl⟩ : ∃ a0 l0, l = a0 :: l0 := by
      cases l with | nil => simp at hlen | cons a0 l0 => exact ⟨a0, l0, rfl⟩
    obtain ⟨a1, l1, rfl⟩ : ∃ a1 l1, l0 = a1 :: l1 := by
      cases l0 with | nil => simp at hlen | cons a1 l1 => exact ⟨a1, l1, rfl⟩
    obtain ⟨a2, l2, rfl⟩ : ∃ a2 l2, l1 = a2 :: l2 := by
      cases l1 with | nil => simp at hlen | cons a2 l2 => exact ⟨a2, l2, rfl⟩
    obtain ⟨a3, l3, rfl⟩ : ∃ a3 l3, l2 = a3 :: l3 := by
      cases l2 with | nil => simp at hlen | cons a3 l3 => exact ⟨a3, l3, rfl⟩
    obtain ⟨a4, l4, rfl⟩ : ∃ a4 l4, l3 = a4 :: l4 := by
      cases l3 with | nil => simp at hlen | cons a4 l4 => exact ⟨a4, l4, rfl⟩
    obtain ⟨a5, l5, rfl⟩ : ∃ a5 l5, l4 = a5 :: l5 := by
      cases l4 with | nil => simp at hlen | cons a5 l5 => exact ⟨a5, l5, rfl⟩
    obtain ⟨a6, l6, rfl⟩ : ∃ a6 l6, l5 = a6 :: l6 := by
      cases l5 with | nil => simp at hlen | cons a6 l6 => exact ⟨a6, l6, rfl⟩
    obtain ⟨a7, l7, rfl⟩ : ∃ a7 l7, l6 = a7 :: l7 := by
      cases l6 with | nil => simp at hlen | cons a7 l7 => exact ⟨a7, l7, rfl⟩
    obtain ⟨a8, l8, rfl⟩ : ∃ a8 l8, l7 = a8 :: l8 := by
      cases l7 with | nil => simp at hlen | cons a8 l8 => exact ⟨a8, l8, rfl⟩
    obtain ⟨a9, l9, rfl⟩ : ∃ a9 l9, l8 = a9 :: l9 := by
      cases l8 with | nil => simp at hlen | cons a9 l9 => exact ⟨a9, l9, rfl⟩
    obtain ⟨a10, l10, rfl⟩ : ∃ a10 l10, l9 = a10 :: l10 := by
      cases l9 with | nil => simp at hlen | cons a10 l10 => exact ⟨a10, l10, rfl⟩
    have : l10 = [] := by
      simp only [List.length_cons] at hlen
      exact List.eq_nil_of_length_eq_zero (by omega)
    subst this
    rw [read_header_cons13]
    simp [parse_segment_header, hmagic]
  · intro p0 p1 p2 p3 d0 d1 d2 d3 tc s0 s1 rest f htc
    rw [read_header_cons13]
    simp only [List.mem_cons, List.not_mem_nil, or_false, not_or] at htc
    obtain ⟨h1, h2, h3, h4, h5⟩ := htc
    simp [parse_segment_header, SegmentTypeCode.try_from, h1, h2, h3, h4, h5]

/-- Closed witness for the amended C2 at concrete readers. -/
theorem claim_C2_witness :
    read_header ⟨[0x50, 0x47, 0, 0], false⟩ = .ok none ∧
    read_header ⟨[0x50, 0x47, 0, 0], true⟩ = .error .segmentFailReadHeader ∧
    read_header ⟨[0x00, 0x47, 0, 0, 0, 0, 0, 0, 0, 0, 0x80, 0, 0], false⟩ =
      .error .segmentPGMissing ∧
    read_header ⟨[0x50, 0x47, 0, 0, 0, 0, 0, 0, 0, 0, 0x42, 0, 0], false⟩ =
      .error (.segmentInvalidTypeCode 0x42) :=
  ⟨claim_C2_amended.1 ⟨[0x50, 0x47, 0, 0], false⟩ (by decide) rfl,
   claim_C2_amended.2.1 ⟨[0x50, 0x47, 0, 0], true⟩ (by decide) rfl,
   claim_C2_amended.2.2.1 0x00 0x47 [0, 0, 0, 0, 0, 0, 0, 0, 0x80, 0, 0] false
     (by decide) (by decide),
   claim_C2_amended.2.2.2 0 0 0 0 0 0 0 0 0x42 0 0 [] false (by decide)⟩

/-! ## Time model (src/time/time_point.rs, src/time/time_span.rs) -/

/-- `TimePoint` (src/time/time_point.rs): a signed millisecond
timestamp. -/
structure TimePoint where
  msecs : Int
  deriving DecidableEq, Repr

/-- `TimePoint::from_msecs`. -/
def TimePoint.from_msecs (time : Int) : TimePoint := ⟨time⟩

/-- `TimeSpan` (src/time/time_span.rs).  `stop` renders the source's
`end` field (`end` is a Lean keyword). -/
structure TimeSpan where
  start : TimePoint
  stop : TimePoint
  deriving DecidableEq, Repr

/-- `TimeSpan::new`. -/
def TimeSpan.new (start stop : TimePoint) : TimeSpan := ⟨start, stop⟩

/-! ## Segment skipping and the timing-only decoding loop
(src/pgs/segment.rs lines 141-152, src/pgs/decoder.rs lines 29-65) -/

/-- `skip_segment` (src/pgs/segment.rs lines 141-152): advance past the
segment's `size` bytes; a skip failure is wrapped in the typed
segment-skip error carrying the segment's type code. -/
def skip_segment (r : Reader) (h : SegmentHeader) : Except PgsError Reader :=
  match r.skip_data h.size with
  | .ok r' => .ok r'
  | .error _ => .error (.segmentSkip h.type_code)

theorem skip_segment_ok_length {r : Reader} {h : SegmentHeader} {r' : Reader}
    (hs : skip_segment r h = .ok r') :
    r'.bytes.length ≤ r.bytes.length ∧ r'.fault = r.fault := by
  unfold skip_segment at hs
  cases hd : r.skip_data h.size with
  | error e => rw [hd] at hs; cases hs
  | ok r'' =>
    rw [hd] at hs
    cases hs
    exact skip_data_ok_length hd

/-- The `while let` loop of `DecodeTimeOnly::parse_next`
(src/pgs/decoder.rs lines 36-61), with an explicit fuel argument.  On
each `End` segment, if no start time is pending the segment's
presentation time becomes the pending start; if a start is pending, a
`TimeSpan` is formed and returned (the loop guard `subtitle.is_some()`
stops further reads).  All non-`End` segments are skipped unread. -/
def time_only_loop : Nat → Reader → Option TimePoint → RunResult PgsError (Option TimeSpan)
  | 0, _, _ => .noFuel
  | fuel + 1, r, start_time =>
    match read_header r with
    | .error e => .err e
    | .ok none => .ok none
    | .ok (some (hdr, r')) =>
      match hdr.type_code with
      | .endSeg =>
        let time := TimePoint.from_msecs (Int.ofNat hdr.presentation_time)
        match start_time with
        | some s => .ok (some (TimeSpan.new s time))
        | none => time_only_loop fuel r' (some time)
      | _ =>
        match skip_segment r' hdr with
        | .error e => .err e
        | .ok r'' => time_only_loop fuel r'' start_time

/-- `DecodeTimeOnly::parse_next` (src/pgs/decoder.rs lines 32-64).  The
fuel `bytes.length + 1` is always sufficient, since every loop iteration
consumes a 13-byte header (`time_only_loop_ne_noFuel`). -/
def DecodeTimeOnly.parse_next (r : Reader) : RunResult PgsError (Option TimeSpan) :=
  time_only_loop (r.bytes.length + 1) r none

/-- The fuel chosen by `DecodeTimeOnly.parse_next` never runs out: each
iteration consumes at least the 13 header bytes. -/
theorem time_only_loop_ne_noFuel :
    ∀ (fuel : Nat) (r : Reader) (st : Option TimePoint), r.bytes.length < fuel →
      time_only_loop fuel r st ≠ .noFuel := by
  intro fuel
  induction fuel with
  | zero => intro r st h; exact absurd h (Nat.not_lt_zero _)
  | succ fuel ih =>
    intro r st h
    cases hh : read_header r with
    | error e => simp [time_only_loop, hh]
    | ok o =>
      cases o with
      | none => simp [time_only_loop, hh]
      | some p =>
        obtain ⟨hdr, r'⟩ := p
        obtain ⟨hl, -⟩ := read_header_some_length hh
        simp only [time_only_loop, hh]
        cases htc : hdr.type_code with
        | endSeg =>
          cases st with
          | some s => simp
          | none => exact ih r' _ (by omega)
        | pds =>
          cases hs : skip_segment r' hdr with
          | error e => simp
          | ok r'' =>
            obtain ⟨hl2, -⟩ := skip_segment_ok_length hs
            exact ih r'' st (by omega)
        | ods =>
          cases hs : skip_segment r' hdr with
          | error e => simp
          | ok r'' =>
            obtain ⟨hl2, -⟩ := skip_segment_ok_length hs
            exact ih r'' st (by omega)
        | pcs =>
          cases hs : skip_segment r' hdr with
          | error e => simp
          | ok r'' =>
            obtain ⟨hl2, -⟩ := skip_segment_ok_length hs
            exact ih r'' st (by omega)
        | wds =>
          cases hs : skip_segment r' hdr with
          | error e => simp
          | ok r'' =>
            obtain ⟨hl2, -⟩ := skip_segment_ok_length hs
            exact ih r'' st (by omega)

/-! ## Concrete segment byte streams -/

/-- The 13 bytes of a well-formed `End` segment: magic `PG`, big-endian
presentation and decode timestamps, type code `0x80`, size `0`. -/
def endSegment (pts dts : Nat) : List Nat :=
  0x50 :: 0x47 :: (be32enc pts ++ (be32enc dts ++ [0x80, 0x00, 0x00]))

theorem endSegment_length (pts dts : Nat) : (endSegment pts dts).length = 13 := by
  simp [endSegment, be32enc]

/-- Reading a header off a stream that starts with a well-formed `End`
segment yields the `End` header with the decoded presentation timestamp
and size `0`. -/
theorem read_header_endSegment (pts dts : Nat) (rest : List Nat) (f : Bool)
    (hp : pts < 2 ^ 32) :
    read_header ⟨endSegment pts dts ++ rest, f⟩ =
      .ok (some (⟨pts, .endSeg, 0⟩, ⟨rest, f⟩)) := by
  have hsh : endSegment pts dts ++ rest =
      0x50 :: 0x47 :: pts / 2 ^ 24 % 256 :: pts / 2 ^ 16 % 256 ::
      pts / 2 ^ 8 % 256 :: pts % 256 :: dts / 2 ^ 24 % 256 :: dts / 2 ^ 16 % 256 ::
      dts / 2 ^ 8 % 256 :: dts % 256 :: 0x80 :: 0x00 :: 0x00 :: rest := by
    simp [endSegment, be32enc]
  rw [hsh, read_header_cons13]
  simp only [parse_segment_header, SegmentTypeCode.try_from]
  norm_num
  constructor
  · simp only [be32]; omega
  · simp [be16]

theorem time_only_loop_end_pending (fuel pts dts : Nat) (rest : List Nat) (f : Bool)
    (hfuel : 0 < fuel) (hp : pts < 2 ^ 32) :
    time_only_loop fuel ⟨endSegment pts dts ++ rest, f⟩ none =
      time_only_loop (fuel - 1) ⟨rest, f⟩
        (some (TimePoint.from_msecs (Int.ofNat (pts / 90)))) := by
  cases fuel with
  | zero => omega
  | succ fuel =>
    simp only [time_only_loop, read_header_endSegment pts dts rest f hp,
      SegmentHeader.presentation_time, Nat.add_sub_cancel]

theorem time_only_loop_end_close (fuel pts dts : Nat) (rest : List Nat) (f : Bool)
    (s : TimePoint) (hfuel : 0 < fuel) (hp : pts < 2 ^ 32) :
    time_only_loop fuel ⟨endSegment pts dts ++ rest, f⟩ (some s) =
      .ok (some (TimeSpan.new s (TimePoint.from_msecs (Int.ofNat (pts / 90))))) := by
  cases fuel with
  | zero => omega
  | succ fuel =>
    simp only [time_only_loop, read_header_endSegment pts dts rest f hp,
      SegmentHeader.presentation_time]

theorem time_only_loop_eof_some (fuel : Nat) (st : Option TimePoint) (hfuel : 0 < fuel) :
    time_only_loop fuel ⟨[], false⟩ st = .ok none := by
  cases fuel with
  | zero => omega
  | succ fuel => rfl

/-- C1: a byte stream of exactly two well-formed `End` segments decodes
as exactly one `TimeSpan` whose start and stop are the two presentation
timestamps divided by 90 (milliseconds).  More generally, on an `End`
segment the loop turns an absent pending start into the segment's
presentation time, and a pending start into an emitted `TimeSpan` that
ends the call. -/
theorem claim_C1 :
    (∀ pts1 dts1 pts2 dts2 : Nat, pts1 < 2 ^ 32 → pts2 < 2 ^ 32 →
      DecodeTimeOnly.parse_next ⟨endSegment pts1 dts1 ++ endSegment pts2 dts2, false⟩ =
        .ok (some (TimeSpan.new (TimePoint.from_msecs (Int.ofNat (pts1 / 90)))
          (TimePoint.from_msecs (Int.ofNat (pts2 / 90)))))) ∧
    (∀ (fuel pts dts : Nat) (rest : List Nat) (f : Bool), 0 < fuel → pts < 2 ^ 32 →
      time_only_loop fuel ⟨endSegment pts dts ++ rest, f⟩ none =
        time_only_loop (fuel - 1) ⟨rest, f⟩
          (some (TimePoint.from_msecs (Int.ofNat (pts / 90))))) ∧
    (∀ (fuel pts dts : Nat) (rest : List Nat) (f : Bool) (s : TimePoint),
      0 < fuel → pts < 2 ^ 32 →
      time_only_loop fuel ⟨endSegment pts dts ++ rest, f⟩ (some s) =
        .ok (some (TimeSpan.new s (TimePoint.from_msecs (Int.ofNat (pts / 90)))))) := by
  refine ⟨?_, time_only_loop_end_pending, time_only_loop_end_close⟩
  intro pts1 dts1 pts2 dts2 h1 h2
  have hlen : (endSegment pts1 dts1 ++ endSegment pts2 dts2).length = 26 := by
    simp [endSegment_length]
  unfold DecodeTimeOnly.parse_next
  simp only [hlen]
  rw [time_only_loop_end_pending 27 pts1 dts1 _ false (by norm_num) h1]
  rw [← List.append_nil (endSegment pts2 dts2)]
  rw [time_only_loop_end_close 26 pts2 dts2 [] false _ (by norm_num) h2]

/-- Closed witness for C1: two `End` segments with presentation
timestamps 90 and 180 ticks yield the single span 1 ms → 2 ms. -/
theorem claim_C1_witness :
    DecodeTimeOnly.parse_next ⟨endSegment 90 0 ++ endSegment 180 0, false⟩ =
      .ok (some (TimeSpan.new (TimePoint.from_msecs (Int.ofNat (90 / 90)))
        (TimePoint.from_msecs (Int.ofNat (180 / 90))))) :=
  claim_C1.1 90 0 180 0 (by norm_num) (by norm_num)

/-- C10: if the input ends cleanly while a start time is pending (e.g.
after an odd number of `End` segments), `DecodeTimeOnly::parse_next`
returns `Ok(None)`, silently discarding the pending start: the pending
start is dropped at clean end-of-stream, and a stream of exactly one
`End` segment decodes to `Ok(None)`. -/
theorem claim_C10 :
    (∀ (fuel : Nat) (s : TimePoint), 0 < fuel →
      time_only_loop fuel ⟨[], false⟩ (some s) = .ok none) ∧
    (∀ pts dts : Nat, pts < 2 ^ 32 →
      DecodeTimeOnly.parse_next ⟨endSegment pts dts, false⟩ = .ok none) := by
  constructor
  · intro fuel s hfuel
    exact time_only_loop_eof_some fuel (some s) hfuel
  · intro pts dts hp
    unfold DecodeTimeOnly.parse_next
    simp only [endSegment_length]
    rw [← List.append_nil (endSegment pts dts)]
    rw [time_only_loop_end_pending 14 pts dts [] false (by norm_num) hp]
    exact time_only_loop_eof_some 13 _ (by norm_num)

/-- Closed witness for C10: one `End` segment then clean end-of-stream
yields `Ok(None)`. -/
theorem claim_C10_witness :
    DecodeTimeOnly.parse_next ⟨endSegment 90 0, false⟩ = .ok none :=
  claim_C10.2 90 0 (by norm_num)

/-! ## Geometry (src/content/area.rs) -/

/-- `AreaValues` (src/content/area.rs lines 7-16): raw `u16`
coordinates. -/
structure AreaValues where
  x1 : Nat
  y1 : Nat
  x2 : Nat
  y2 : Nat
  deriving DecidableEq, Repr

/-- `Area` (src/content/area.rs line 21): validated newtype around
`AreaValues`. -/
structure Area where
  val : AreaValues
  deriving DecidableEq, Repr

/-- `ContentError` variant used by `Area` construction
(src/content/mod.rs is absent from the snapshot; only the variant
identity matters). -/
inductive ContentError where
  | invalidAreaBounding
  deriving DecidableEq, Repr

/-- `TryFrom<AreaValues> for Area` (src/content/area.rs lines 90-106). -/
def Area.try_from (coords_value : AreaValues) : Except ContentError Area :=
  if coords_value.x2 ≤ coords_value.x1 ∨ coords_value.y2 ≤ coords_value.y1 then
    .error .invalidAreaBounding
  else
    .ok ⟨coords_value⟩

/-- The `u16` modulus. -/
def U16 : Nat := 2 ^ 16

/-- `Area::width` (src/content/area.rs lines 38-40): `x2 + 1 - x1` in
`u16` arithmetic.  Release-profile wrapping is modelled with `% U16`
(debug builds panic when `x2 + 1` overflows, i.e. when `x2 = 0xFFFF`). -/
def Area.width (a : Area) : Nat :=
  ((a.val.x2 + 1) % U16 + (U16 - a.val.x1 % U16)) % U16

/-- `Area::height` (src/content/area.rs lines 44-46): `y2 + 1 - y1` in
`u16` arithmetic, wrapping modelled as in `Area.width`. -/
def Area.height (a : Area) : Nat :=
  ((a.val.y2 + 1) % U16 + (U16 - a.val.y1 % U16)) % U16

theorem area_try_from_ok {c : AreaValues} {a : Area}
    (h : Area.try_from c = .ok a) : a = ⟨c⟩ ∧ c.x1 < c.x2 ∧ c.y1 < c.y2 := by
  unfold Area.try_from at h
  split at h
  · cases h
  · cases h
    next hcond => exact ⟨rfl, by omega, by omega⟩

/-- C8 counterexample: the raw coordinates `{x1 := 0, y1 := 0,
x2 := 0xFFFF, y2 := 1}` satisfy `x2 > x1 ∧ y2 > y1`, so construction
succeeds, but `width()` computes `x2 + 1 - x1` in `u16` arithmetic where
`x2 + 1` wraps to `0`, so the result is `0`, not `x2 + 1 - x1 = 65536`
(a debug build would panic at the overflow instead). -/
theorem claim_C8_counterexample :
    Area.try_from ⟨0, 0, 0xFFFF, 1⟩ = .ok ⟨⟨0, 0, 0xFFFF, 1⟩⟩ ∧
    (Area.mk ⟨0, 0, 0xFFFF, 1⟩).width = 0 ∧
    (0xFFFF : Nat) + 1 - 0 = 65536 := by
  refine ⟨rfl, rfl, by norm_num⟩

/-- C8 as amended: `Area` construction succeeds iff `x2 > x1 ∧ y2 > y1`,
failing otherwise with the invalid-area-bounding error; and for every
successfully constructed `Area` (with `u16` coordinates), `width()`
equals `(x2 + 1 - x1) % 2^16` and `height()` equals
`(y2 + 1 - y1) % 2^16` — which coincide with `x2 + 1 - x1` and
`y2 + 1 - y1` except in the wrap-around case `x2 = 0xFFFF ∧ x1 = 0`
(resp. `y2 = 0xFFFF ∧ y1 = 0`). -/
theorem claim_C8_amended :
    (∀ c : AreaValues, (c.x1 < c.x2 ∧ c.y1 < c.y2) →
      Area.try_from c = .ok ⟨c⟩) ∧
    (∀ c : AreaValues, ¬(c.x1 < c.x2 ∧ c.y1 < c.y2) →
      Area.try_from c = .error .invalidAreaBounding) ∧
    (∀ (c : AreaValues) (a : Area), Area.try_from c = .ok a →
      c.x1 < U16 → c.y1 < U16 → c.x2 < U16 → c.y2 < U16 →
      (a.width = (c.x2 + 1 - c.x1) % U16 ∧
       a.height = (c.y2 + 1 - c.y1) % U16 ∧
       (¬(c.x2 = 0xFFFF ∧ c.x1 = 0) → a.width = c.x2 + 1 - c.x1) ∧
       (¬(c.y2 = 0xFFFF ∧ c.y1 = 0) → a.height = c.y2 + 1 - c.y1))) := by
  refine ⟨?_, ?_, ?_⟩
  · intro c h
    unfold Area.try_from
    rw [if_neg (by omega)]
  · intro c h
    unfold Area.try_from
    rw [if_pos (by omega)]
  · intro c a hok h1 h2 h3 h4
    obtain ⟨rfl, hx, hy⟩ := area_try_from_ok hok
    simp only [U16] at h1 h2 h3 h4
    unfold Area.width Area.height U16
    norm_num
    omega

/-- Closed witness for the amended C8 at the spec's own example
`{10,10,20,20}` (success) and `{20,10,10,20}` (failure). -/
theorem claim_C8_witness :
    Area.try_from ⟨10, 10, 20, 20⟩ = .ok ⟨⟨10, 10, 20, 20⟩⟩ ∧
    Area.try_from ⟨20, 10, 10, 20⟩ = .error .invalidAreaBounding ∧
    (Area.mk ⟨10, 10, 20, 20⟩).width = 20 + 1 - 10 ∧
    (Area.mk ⟨10, 10, 20, 20⟩).height = 20 + 1 - 10 :=
  ⟨claim_C8_amended.1 ⟨10, 10, 20, 20⟩ (by norm_num),
   claim_C8_amended.2.1 ⟨20, 10, 10, 20⟩ (by norm_num),
   (claim_C8_amended.2.2 ⟨10, 10, 20, 20⟩ ⟨⟨10, 10, 20, 20⟩⟩
      (claim_C8_amended.1 ⟨10, 10, 20, 20⟩ (by norm_num))
      (by norm_num [U16]) (by norm_num [U16]) (by norm_num [U16])
      (by norm_num [U16])).2.2.1 (by norm_num),
   (claim_C8_amended.2.2 ⟨10, 10, 20, 20⟩ ⟨⟨10, 10, 20, 20⟩⟩
      (claim_C8_amended.1 ⟨10, 10, 20, 20⟩ (by norm_num))
      (by norm_num [U16]) (by norm_num [U16]) (by norm_num [U16])
      (by norm_num [U16])).2.2.2 (by norm_num)⟩

/-! ## Buffer-mode segment views (src/pgs/segment.rs lines 154-215) -/

/-- `SegmentBufError` (src/pgs/segment.rs lines 155-165). -/
inductive SegmentBufError where
  | segmentCodeRead (e : PgsError)
  | segmentSizeRead
  | bufferLen (segSize bufLen : Nat)
  deriving DecidableEq, Repr

/-- `TryFrom<&[u8]> for SegmentBuf` (src/pgs/segment.rs lines 195-215):
validate the type-code byte, read the big-endian size at offsets 1..3,
and reject with the buffer-length error when `seg_size + 3 <
buffer.len()` — note the direction of the comparison in the source.
Indexing `buffer[0]` or `buffer[1..3]` out of range panics (`fatal`);
the `SegmentSizeRead` variant is unreachable, since a `[u8; 2]`
conversion of an in-range 2-byte slice cannot fail. -/
def SegmentBuf.try_from (buffer : List Nat) : PanicResult SegmentBufError (List Nat) :=
  match buffer with
  | [] => .fatal
  | b0 :: tail =>
    match SegmentTypeCode.try_from b0 with
    | .error e => .err (.segmentCodeRead e)
    | .ok _ =>
      match tail with
      | s0 :: s1 :: _ =>
        let seg_size := be16 s0 s1
        if seg_size + 3 < buffer.length then
          .err (.bufferLen seg_size buffer.length)
        else
          .ok buffer
      | _ => .fatal

/-- C3 counterexample: the 3-byte slice `[0x80, 0x00, 0x01]` declares
size 1 but carries no payload byte, so it does *not* contain the
`declared size + 3 = 4` bytes the claim requires for success — yet
construction succeeds, because the source only rejects buffers that are
*longer* than `size + 3`. -/
theorem claim_C3_counterexample :
    SegmentBuf.try_from [0x80, 0x00, 0x01] = .ok [0x80, 0x00, 0x01] ∧
    ([0x80, 0x00, 0x01] : List Nat).length < 1 + 3 := by
  exact ⟨rfl, by norm_num⟩

/-- C3 as amended: for a slice of at least 3 bytes whose first byte is a
valid type code, construction fails with the buffer-length error exactly
when the slice is strictly *longer* than `declared size + 3`; any slice
no longer than `declared size + 3` is accepted — in particular a slice
too short for its declared size is *not* rejected.  (An empty slice, or
a 1-2 byte slice with a valid code byte, panics on indexing instead.) -/
theorem claim_C3_amended :
    ∀ (b0 s0 s1 : Nat) (rest : List Nat) (c : SegmentTypeCode),
      SegmentTypeCode.try_from b0 = .ok c →
      (be16 s0 s1 + 3 < (b0 :: s0 :: s1 :: rest).length →
        SegmentBuf.try_from (b0 :: s0 :: s1 :: rest) =
          .err (.bufferLen (be16 s0 s1) (b0 :: s0 :: s1 :: rest).length)) ∧
      (¬ be16 s0 s1 + 3 < (b0 :: s0 :: s1 :: rest).length →
        SegmentBuf.try_from (b0 :: s0 :: s1 :: rest) =
          .ok (b0 :: s0 :: s1 :: rest)) := by
  intro b0 s0 s1 rest c hc
  constructor
  · intro hlt
    simp only [SegmentBuf.try_from, hc]
    rw [if_pos hlt]
  · intro hge
    simp only [SegmentBuf.try_from, hc]
    rw [if_neg hge]

/-- Closed witness for the amended C3: a 4-byte `End` buffer declaring
size 0 is rejected as over-long, and the spec's own example
`[0x14, 0x00, 0x04, b0, b1, b2, b3]` is accepted. -/
theorem claim_C3_witness :
    SegmentBuf.try_from [0x80, 0x00, 0x00, 0x00] =
      .err (.bufferLen 0 4) ∧
    SegmentBuf.try_from [0x14, 0x00, 0x04, 0x10, 0x25, 0x06, 0x00] =
      .ok [0x14, 0x00, 0x04, 0x10, 0x25, 0x06, 0x00] := by
  constructor
  · have h := (claim_C3_amended 0x80 0x00 0x00 [0x00] .endSeg rfl).1 (by norm_num [be16])
    simpa [be16] using h
  · have h := (claim_C3_amended 0x14 0x00 0x04 [0x10, 0x25, 0x06, 0x00] .pds rfl).2
      (by norm_num [be16])
    simpa [be16] using h

/-! ## Object Definition Segment reading (src/pgs/ods.rs) -/

/-- `ObjectDefinitionSegment` (src/pgs/ods.rs lines 107-112): a complete
bitmap object. -/
structure ObjectDefinitionSegment where
  width : Nat
  height : Nat
  object_data : List Nat
  deriving DecidableEq, Repr

/-- The `usize` modulus. -/
def U64 : Nat := 2 ^ 64

theorem readExactGo1 (a : Nat) (l : List Nat) : readExactGo 1 (a :: l) = some ([a], l) := rfl

theorem readExactGo2 (a b : Nat) (l : List Nat) :
    readExactGo 2 (a :: b :: l) = some ([a, b], l) := rfl

theorem readExactGo3 (a b c : Nat) (l : List Nat) :
    readExactGo 3 (a :: b :: c :: l) = some ([a, b, c], l) := rfl

theorem drop3_cons (a b c : Nat) (l : List Nat) : List.drop 3 (a :: b :: c :: l) = l := rfl

namespace ods

/-- `ods::read` (src/pgs/ods.rs lines 114-141): skip the 2-byte object
id and 1-byte version, read the sequence flag, read the 3-byte
big-endian object-data length, subtract 4 (the length field also counts
the width/height fields; the `usize` subtraction wraps modulo `2^64` in
release builds — a debug build would panic when the field is 4or
smaller), read width and height, and for a `FirstAndLast` flag `assert!`
that the declared segment size equals `11 + data_size` (`fatal` on
mismatch) before reading exactly `data_size` payload bytes.  Any flag
other than `FirstAndLast` yields the distinct flag-not-managed error. -/
def read (r : Reader) (segments_size : Nat) :
    PanicResult OdsError (ObjectDefinitionSegment × Reader) :=
  match r.skip_data 3 with
  | .error _ => .err .skipObjectIdAndVerNum
  | .ok r1 =>
    match r1.read_exact 1 with
    | .error _ => .err .lastInSequenceFlagReadData
    | .ok (fb, r2) =>
      match LastInSequenceFlag.try_from (fb.getD 0 0) with
      | .error e => .err e
      | .ok flag =>
        match r2.read_exact 3 with
        | .error _ => .err .readObjectDataLength
        | .ok (lb, r3) =>
          let data_size :=
            (be24 (lb.getD 0 0) (lb.getD 1 0) (lb.getD 2 0) + (U64 - 4)) % U64
          match r3.read_exact 2 with
          | .error _ => .err .readWidth
          | .ok (wb, r4) =>
            match r4.read_exact 2 with
            | .error _ => .err .readHeight
            | .ok (hb, r5) =>
              if flag = .firstAndLast then
                if segments_size = (11 + data_size) % U64 then
                  match r5.read_exact data_size with
                  | .error _ => .err (.objectData data_size)
                  | .ok (payload, r6) =>
                    .ok (⟨be16 (wb.getD 0 0) (wb.getD 1 0),
                          be16 (hb.getD 0 0) (hb.getD 1 0), payload⟩, r6)
                else .fatal
              else .err (.lastInSequenceFlagNotManaged flag)

end ods

/-- Evaluation of `ods::read` on a segment body whose flag byte decodes
successfully, once the fixed-size fields are in place. -/
theorem ods_read_eval (i0 i1 i2 fb l0 l1 l2 w0 w1 h0 h1 : Nat) (rest : List Nat)
    (f : Bool) (segments_size : Nat) (flag : LastInSequenceFlag)
    (hflag : LastInSequenceFlag.try_from fb = .ok flag) :
    ods.read ⟨i0 :: i1 :: i2 :: fb :: l0 :: l1 :: l2 :: w0 :: w1 :: h0 :: h1 :: rest, f⟩
        segments_size =
      (if flag = .firstAndLast then
        if segments_size = (11 + (be24 l0 l1 l2 + (U64 - 4)) % U64) % U64 then
          match (Reader.mk rest f).read_exact ((be24 l0 l1 l2 + (U64 - 4)) % U64) with
          | .error _ => .err (.objectData ((be24 l0 l1 l2 + (U64 - 4)) % U64))
          | .ok (payload, r6) => .ok (⟨be16 w0 w1, be16 h0 h1, payload⟩, r6)
        else .fatal
      else .err (.lastInSequenceFlagNotManaged flag)) := by
  have hskip : (Reader.mk
      (i0 :: i1 :: i2 :: fb :: l0 :: l1 :: l2 :: w0 :: w1 :: h0 :: h1 :: rest) f).skip_data 3 =
      .ok ⟨fb :: l0 :: l1 :: l2 :: w0 :: w1 :: h0 :: h1 :: rest, f⟩ := by
    unfold Reader.skip_data
    rw [if_neg (by simp)]
    rfl
  have hr1 : (Reader.mk (fb :: l0 :: l1 :: l2 :: w0 :: w1 :: h0 :: h1 :: rest) f).read_exact 1 =
      .ok ([fb], ⟨l0 :: l1 :: l2 :: w0 :: w1 :: h0 :: h1 :: rest, f⟩) := rfl
  have hr3 : (Reader.mk (l0 :: l1 :: l2 :: w0 :: w1 :: h0 :: h1 :: rest) f).read_exact 3 =
      .ok ([l0, l1, l2], ⟨w0 :: w1 :: h0 :: h1 :: rest, f⟩) := rfl
  have hrw : (Reader.mk (w0 :: w1 :: h0 :: h1 :: rest) f).read_exact 2 =
      .ok ([w0, w1], ⟨h0 :: h1 :: rest, f⟩) := rfl
  have hrh : (Reader.mk (h0 :: h1 :: rest) f).read_exact 2 =
      .ok ([h0, h1], ⟨rest, f⟩) := rfl
  have hg1 : ([fb] : List Nat).getD 0 0 = fb := rfl
  have hgl0 : ([l0, l1, l2] : List Nat).getD 0 0 = l0 := rfl
  have hgl1 : ([l0, l1, l2] : List Nat).getD 1 0 = l1 := rfl
  have hgl2 : ([l0, l1, l2] : List Nat).getD 2 0 = l2 := rfl
  have hgw0 : ([w0, w1] : List Nat).getD 0 0 = w0 := rfl
  have hgw1 : ([w0, w1] : List Nat).getD 1 0 = w1 := rfl
  have hgh0 : ([h0, h1] : List Nat).getD 0 0 = h0 := rfl
  have hgh1 : ([h0, h1] : List Nat).getD 1 0 = h1 := rfl
  simp only [ods.read, hskip, hr1, hg1, hflag, hr3, hgl0, hgl1, hgl2, hrw, hgw0, hgw1,
    hrh, hgh0, hgh1]

/-- C6: for a `FirstAndLast` Object-Definition segment, `ods::read`
computes the compressed-payload length as the 3-byte object-data-length
field minus 4, asserts that the declared total segment size equals
`11 + payload_length` (a mismatch is a panic — `fatal` — never a silent
truncation), and on a match reads exactly `payload_length` payload
bytes. -/
theorem claim_C6 :
    ∀ (i0 i1 i2 l0 l1 l2 w0 w1 h0 h1 : Nat) (rest : List Nat) (f : Bool)
      (segments_size : Nat),
      l0 < 256 → l1 < 256 → l2 < 256 → 4 ≤ be24 l0 l1 l2 →
      (segments_size ≠ 11 + (be24 l0 l1 l2 - 4) →
        ods.read
          ⟨i0 :: i1 :: i2 :: 0xC0 :: l0 :: l1 :: l2 :: w0 :: w1 :: h0 :: h1 :: rest, f⟩
          segments_size = .fatal) ∧
      (segments_size = 11 + (be24 l0 l1 l2 - 4) → be24 l0 l1 l2 - 4 ≤ rest.length →
        ods.read
          ⟨i0 :: i1 :: i2 :: 0xC0 :: l0 :: l1 :: l2 :: w0 :: w1 :: h0 :: h1 :: rest, f⟩
          segments_size =
          .ok (⟨be16 w0 w1, be16 h0 h1, rest.take (be24 l0 l1 l2 - 4)⟩,
               ⟨rest.drop (be24 l0 l1 l2 - 4), f⟩)) := by
  intro i0 i1 i2 l0 l1 l2 w0 w1 h0 h1 rest f segments_size hl0 hl1 hl2 h4
  have hbound : be24 l0 l1 l2 < 2 ^ 24 := by simp only [be24]; omega
  have hds : (be24 l0 l1 l2 + (U64 - 4)) % U64 = be24 l0 l1 l2 - 4 := by
    simp only [U64]; omega
  have h11 : (11 + (be24 l0 l1 l2 + (U64 - 4)) % U64) % U64 = 11 + (be24 l0 l1 l2 - 4) := by
    simp only [U64]; omega
  have heval := ods_read_eval i0 i1 i2 0xC0 l0 l1 l2 w0 w1 h0 h1 rest f segments_size
    .firstAndLast rfl
  rw [if_pos rfl, h11, hds] at heval
  constructor
  · intro hne
    rw [heval, if_neg hne]
  · intro heq hlen
    rw [heval, if_pos heq]
    unfold Reader.read_exact
    rw [readExactGo_of_le _ _ hlen]

/-- Closed witness for C6: a 4-byte payload with declared length field 8;
segment size 15 = 11 + 4 succeeds reading exactly the 4 payload bytes,
segment size 16 trips the assertion. -/
theorem claim_C6_witness :
    ods.read ⟨[0, 0, 0, 0xC0, 0, 0, 8, 0, 2, 0, 2, 9, 9, 9, 9, 7], false⟩ 15 =
      .ok (⟨2, 2, [9, 9, 9, 9]⟩, ⟨[7], false⟩) ∧
    ods.read ⟨[0, 0, 0, 0xC0, 0, 0, 8, 0, 2, 0, 2, 9, 9, 9, 9, 7], false⟩ 16 = .fatal := by
  have h := claim_C6 0 0 0 0 0 8 0 2 0 2 [9, 9, 9, 9, 7] false 15
    (by norm_num) (by norm_num) (by norm_num) (by norm_num [be24])
  have h' := claim_C6 0 0 0 0 0 8 0 2 0 2 [9, 9, 9, 9, 7] false 16
    (by norm_num) (by norm_num) (by norm_num) (by norm_num [be24])
  constructor
  · have := h.2 (by norm_num [be24]) (by norm_num [be24])
    simpa [be24, be16] using this
  · exact h'.1 (by norm_num [be24])

/-- C7: the sequence-flag byte decodes 0x40, 0x80, 0xC0 to `Last`,
`First`, `FirstAndLast`, and any other byte fails with the invalid-value
error carrying that byte; a successfully decoded `First`-only or
`Last`-only flag makes `ods::read` (once the fixed-size fields are
present) return the distinct flag-not-managed error — not a panic and
not the invalid-value error. -/
theorem claim_C7 :
    (LastInSequenceFlag.try_from 0x40 = .ok .last ∧
     LastInSequenceFlag.try_from 0x80 = .ok .first ∧
     LastInSequenceFlag.try_from 0xC0 = .ok .firstAndLast) ∧
    (∀ b : Nat, b ∉ [0x40, 0x80, 0xC0] →
      LastInSequenceFlag.try_from b = .error (.lastInSequenceFlagInvalidValue b)) ∧
    (∀ (i0 i1 i2 fb l0 l1 l2 w0 w1 h0 h1 : Nat) (rest : List Nat) (f : Bool)
      (segments_size : Nat) (flag : LastInSequenceFlag),
      LastInSequenceFlag.try_from fb = .ok flag → flag ≠ .firstAndLast →
      ods.read
        ⟨i0 :: i1 :: i2 :: fb :: l0 :: l1 :: l2 :: w0 :: w1 :: h0 :: h1 :: rest, f⟩
        segments_size = .err (.lastInSequenceFlagNotManaged flag)) := by
  refine ⟨⟨rfl, rfl, rfl⟩, ?_, ?_⟩
  · intro b hb
    simp only [List.mem_cons, List.not_mem_nil, or_false, not_or] at hb
    obtain ⟨h1, h2, h3⟩ := hb
    simp [LastInSequenceFlag.try_from, h1, h2, h3]
  · intro i0 i1 i2 fb l0 l1 l2 w0 w1 h0 h1 rest f segments_size flag hflag hne
    rw [ods_read_eval i0 i1 i2 fb l0 l1 l2 w0 w1 h0 h1 rest f segments_size flag hflag]
    rw [if_neg hne]

/-- Closed witness for C7: the byte 0x41 is invalid; a `First`-only flag
(0x80) produces the flag-not-managed error. -/
theorem claim_C7_witness :
    LastInSequenceFlag.try_from 0x41 = .error (.lastInSequenceFlagInvalidValue 0x41) ∧
    ods.read ⟨[0, 0, 0, 0x80, 0, 0, 8, 0, 2, 0, 2, 9], false⟩ 15 =
      .err (.lastInSequenceFlagNotManaged .first) :=
  ⟨claim_C7.2.1 0x41 (by decide),
   claim_C7.2.2 0 0 0 0x80 0 0 8 0 2 0 2 [9] false 15 .first rfl (by decide)⟩

/-! ## Timing + image decoding (src/pgs/decoder.rs lines 68-136)

`decoder.rs` routes `PaletteDef` segments through `pds::read` and
`ObjectDef` segments through a three-argument `ods::read` returning a
`Complete`/`Incomplete` accumulator state.  Both of those live in files
absent from the snapshot (`pds.rs`, and the accumulator revision of
`ods.rs`); they are modelled from the spec below and marked as such. -/

/-- Modelled from the spec: `pds.rs` is missing from the snapshot.  A
`Palette` is an opaque index-to-color mapping produced by the external
palette decoder; it is modelled by the raw bytes it was decoded from,
since this core consumes it opaquely (spec §4.4). -/
structure Palette where
  data : List Nat
  deriving DecidableEq, Repr

/-- `RleEncodedImage` (its defining file `pgs_image.rs` is missing from
the snapshot; the spec's data model §3 gives the fields): width, height,
the palette, and the RLE-compressed object data. -/
structure RleEncodedImage where
  width : Nat
  height : Nat
  palette : Palette
  object_data : List Nat
  deriving DecidableEq, Repr

/-- `RleEncodedImage::new`. -/
def RleEncodedImage.new (width height : Nat) (palette : Palette)
    (object_data : List Nat) : RleEncodedImage :=
  ⟨width, height, palette, object_data⟩

/-- Modelled from the spec: partial accumulator state for a
multi-segment object (spec §4.3: width, height and the bytes collected
so far). -/
structure IncompleteObject where
  width : Nat
  height : Nat
  collected : List Nat
  deriving DecidableEq, Repr

/-- Modelled from the spec: the `Complete`/`Incomplete` result of the
Object Accumulator revision of `ods::read` that `decoder.rs` is written
against (spec §3 and §9: a tagged partial/complete object state). -/
inductive ObjectDefinitionSegmentAcc where
  | complete (o : ObjectDefinitionSegment)
  | incomplete (p : IncompleteObject)
  deriving DecidableEq, Repr

/-- Modelled from the spec: `pds::read` (`pds.rs` is missing from the
snapshot).  Spec §4.4: given the segment's declared size it consumes the
payload and returns a `Palette`; a read failure surfaces as the
PDS-parse error. -/
def pds_read (r : Reader) (seg_size : Nat) : Except PgsError (Palette × Reader) :=
  match r.read_exact seg_size with
  | .ok (xs, r') => .ok (⟨xs⟩, r')
  | .error _ => .error .pdsParse

namespace ods

/-- Modelled from the spec: the three-argument accumulator revision of
`ods::read` used by `decoder.rs` (absent from the snapshot).  Spec §4.3:
with no partial object pending, skip id/version, read the sequence flag,
the 3-byte length (payload length is that minus 4, wrapping as in
`ods.read`), width and height; `FirstAndLast` completes the object in
one segment after the `11 + payload_length` size assertion;
`First` alone stores width, height and this segment's remaining
`seg_size - 11` bytes as partial state.  With a partial object pending,
a `Last` segment's remaining `seg_size - 4` raw bytes are appended to
the collected buffer, completing the object.  The spec leaves the
mismatched-flag cases (a bare `Last` with nothing pending, or a new
`First`/`FirstAndLast` while partial state is held) open; they are
mapped to the flag-not-managed error, which no theorem below relies
on. -/
def read_multi (r : Reader) (seg_size : Nat) (prev : Option IncompleteObject) :
    PanicResult OdsError (ObjectDefinitionSegmentAcc × Reader) :=
  match prev with
  | none =>
    match r.skip_data 3 with
    | .error _ => .err .skipObjectIdAndVerNum
    | .ok r1 =>
      match r1.read_exact 1 with
      | .error _ => .err .lastInSequenceFlagReadData
      | .ok (fb, r2) =>
        match LastInSequenceFlag.try_from (fb.getD 0 0) with
        | .error e => .err e
        | .ok flag =>
          match r2.read_exact 3 with
          | .error _ => .err .readObjectDataLength
          | .ok (lb, r3) =>
            let data_size :=
              (be24 (lb.getD 0 0) (lb.getD 1 0) (lb.getD 2 0) + (U64 - 4)) % U64
            match r3.read_exact 2 with
            | .error _ => .err .readWidth
            | .ok (wb, r4) =>
              match r4.read_exact 2 with
              | .error _ => .err .readHeight
              | .ok (hb, r5) =>
                match flag with
                | .firstAndLast =>
                  if seg_size = (11 + data_size) % U64 then
                    match r5.read_exact data_size with
                    | .error _ => .err (.objectData data_size)
                    | .ok (payload, r6) =>
                      .ok (.complete ⟨be16 (wb.getD 0 0) (wb.getD 1 0),
                            be16 (hb.getD 0 0) (hb.getD 1 0), payload⟩, r6)
                  else .fatal
                | .first =>
                  match r5.read_exact (seg_size - 11) with
                  | .error _ => .err (.objectData (seg_size - 11))
                  | .ok (collected, r6) =>
                    .ok (.incomplete ⟨be16 (wb.getD 0 0) (wb.getD 1 0),
                          be16 (hb.getD 0 0) (hb.getD 1 0), collected⟩, r6)
                | .last => .err (.lastInSequenceFlagNotManaged .last)
  | some p =>
    match r.skip_data 3 with
    | .error _ => .err .skipObjectIdAndVerNum
    | .ok r1 =>
      match r1.read_exact 1 with
      | .error _ => .err .lastInSequenceFlagReadData
      | .ok (fb, r2) =>
        match LastInSequenceFlag.try_from (fb.getD 0 0) with
        | .error e => .err e
        | .ok flag =>
          match flag with
          | .last =>
            match r2.read_exact (seg_size - 4) with
            | .error _ => .err (.objectData (seg_size - 4))
            | .ok (bytes, r3) =>
              .ok (.complete ⟨p.width, p.height, p.collected ++ bytes⟩, r3)
          | _ => .err (.lastInSequenceFlagNotManaged flag)

end ods

/-- The decoded subtitle entry of the timing+image strategy. -/
def Subtitle : Type := TimeSpan × RleEncodedImage

/-- The `while let` loop of `DecodeTimeImage::parse_next`
(src/pgs/decoder.rs lines 82-130) with explicit fuel, returning both the
loop's result and the final `palette`/`prev_ods` slots so that the
trailing assertions can be stated about them. -/
def time_image_loop :
    Nat → Reader → Option TimePoint → Option Palette → Option RleEncodedImage →
    Option IncompleteObject →
    RunResult PgsError (Option Subtitle × Option Palette × Option IncompleteObject)
  | 0, _, _, _, _, _ => .noFuel
  | fuel + 1, r, start_time, palette, image, prev_ods =>
    match read_header r with
    | .error e => .err e
    | .ok none => .ok (none, palette, prev_ods)
    | .ok (some (hdr, r')) =>
      match hdr.type_code with
      | .pds =>
        match pds_read r' hdr.size with
        | .error e => .err e
        | .ok (pal, r'') => time_image_loop fuel r'' start_time (some pal) image prev_ods
      | .ods =>
        match ods.read_multi r' hdr.size prev_ods with
        | .err e => .err (.odsParse e)
        | .fatal => .fatal
        | .ok (.complete o, r'') =>
          match palette with
          | none => .err .missingPalette
          | some pal =>
            time_image_loop fuel r'' start_time none
              (some (RleEncodedImage.new o.width o.height pal o.object_data)) none
        | .ok (.incomplete p, r'') =>
          time_image_loop fuel r'' start_time palette image (some p)
      | .endSeg =>
        let time := TimePoint.from_msecs (Int.ofNat hdr.presentation_time)
        match start_time with
        | some s =>
          match image with
          | none => .err .missingImage
          | some img => .ok (some (TimeSpan.new s time, img), palette, prev_ods)
        | none => time_image_loop fuel r' (some time) palette image prev_ods
      | _ =>
        match skip_segment r' hdr with
        | .error e => .err e
        | .ok r'' => time_image_loop fuel r'' start_time palette image prev_ods

/-- `DecodeTimeImage::parse_next` (src/pgs/decoder.rs lines 72-135):
drive the loop, then run the two trailing assertions
`assert!(palette.is_none())` and `assert!(prev_ods.is_none())` — an
assertion failure is a panic (`fatal`). -/
def DecodeTimeImage.parse_next (r : Reader) : RunResult PgsError (Option Subtitle) :=
  match time_image_loop (r.bytes.length + 1) r none none none none with
  | .err e => .err e
  | .fatal => .fatal
  | .noFuel => .noFuel
  | .ok (subtitle, palette, prev_ods) =>
    match palette with
    | some _ => .fatal
    | none =>
      match prev_ods with
      | some _ => .fatal
      | none => .ok subtitle

/-! Helper lemmas for evaluating the timing+image loop on well-formed
segments. -/

/-- The 13 header bytes of a stream-mode segment with the given
timestamps, type-code byte and declared size. -/
def segHeaderBytes (pts dts tc size : Nat) : List Nat :=
  0x50 :: 0x47 :: (be32enc pts ++ (be32enc dts ++ (tc :: be16enc size)))

theorem segHeaderBytes_length (pts dts tc size : Nat) :
    (segHeaderBytes pts dts tc size).length = 13 := by
  simp [segHeaderBytes, be32enc, be16enc]

theorem read_header_seg (pts dts tc size : Nat) (c : SegmentTypeCode)
    (rest : List Nat) (f : Bool) (hp : pts < 2 ^ 32) (hs : size < 2 ^ 16)
    (hc : SegmentTypeCode.try_from tc = .ok c) :
    read_header ⟨segHeaderBytes pts dts tc size ++ rest, f⟩ =
      .ok (some (⟨pts, c, size⟩, ⟨rest, f⟩)) := by
  have hsh : segHeaderBytes pts dts tc size ++ rest =
      0x50 :: 0x47 :: pts / 2 ^ 24 % 256 :: pts / 2 ^ 16 % 256 ::
      pts / 2 ^ 8 % 256 :: pts % 256 :: dts / 2 ^ 24 % 256 :: dts / 2 ^ 16 % 256 ::
      dts / 2 ^ 8 % 256 :: dts % 256 :: tc :: size / 256 % 256 :: size % 256 :: rest := by
    simp [segHeaderBytes, be32enc, be16enc]
  rw [hsh, read_header_cons13]
  simp only [parse_segment_header, hc]
  norm_num
  constructor
  · simp only [be32]; omega
  · simp only [be16]; omega

/-- The body of a single-segment (`FirstAndLast`) Object-Definition
segment: object id and version (three ignored bytes), flag `0xC0`, the
3-byte object-data length (payload length + 4), width, height, and the
payload. -/
def odsBodyFL (w0 w1 h0 h1 : Nat) (payload : List Nat) : List Nat :=
  0 :: 0 :: 0 :: 0xC0 :: (be24enc (payload.length + 4) ++ (w0 :: w1 :: h0 :: h1 :: payload))

theorem odsBodyFL_length (w0 w1 h0 h1 : Nat) (payload : List Nat) :
    (odsBodyFL w0 w1 h0 h1 payload).length = 11 + payload.length := by
  simp [odsBodyFL, be24enc]
  omega

/-- The spec-modelled accumulator completes a well-formed `FirstAndLast`
segment whose declared size is `11 + payload.length`, consuming exactly
the payload. -/
theorem ods_read_multi_fl (w0 w1 h0 h1 : Nat) (payload rest : List Nat) (f : Bool)
    (hlen : payload.length + 4 < 2 ^ 24) :
    ods.read_multi ⟨odsBodyFL w0 w1 h0 h1 payload ++ rest, f⟩ (11 + payload.length) none =
      .ok (.complete ⟨be16 w0 w1, be16 h0 h1, payload⟩, ⟨rest, f⟩) := by
  have hsh : odsBodyFL w0 w1 h0 h1 payload ++ rest =
      0 :: 0 :: 0 :: 0xC0 :: (payload.length + 4) / 2 ^ 16 % 256 ::
      (payload.length + 4) / 2 ^ 8 % 256 :: (payload.length + 4) % 256 ::
      w0 :: w1 :: h0 :: h1 :: (payload ++ rest) := by
    simp [odsBodyFL, be24enc]
  rw [hsh]
  have hskip : (Reader.mk
      (0 :: 0 :: 0 :: 0xC0 :: (payload.length + 4) / 2 ^ 16 % 256 ::
        (payload.length + 4) / 2 ^ 8 % 256 :: (payload.length + 4) % 256 ::
        w0 :: w1 :: h0 :: h1 :: (payload ++ rest)) f).skip_data 3 =
      .ok ⟨0xC0 :: (payload.length + 4) / 2 ^ 16 % 256 ::
        (payload.length + 4) / 2 ^ 8 % 256 :: (payload.length + 4) % 256 ::
        w0 :: w1 :: h0 :: h1 :: (payload ++ rest), f⟩ := by
    unfold Reader.skip_data
    rw [if_neg (by simp)]
    rfl
  have hr1 : (Reader.mk (0xC0 :: (payload.length + 4) / 2 ^ 16 % 256 ::
      (payload.length + 4) / 2 ^ 8 % 256 :: (payload.length + 4) % 256 ::
      w0 :: w1 :: h0 :: h1 :: (payload ++ rest)) f).read_exact 1 =
      .ok ([0xC0], ⟨(payload.length + 4) / 2 ^ 16 % 256 ::
        (payload.length + 4) / 2 ^ 8 % 256 :: (payload.length + 4) % 256 ::
        w0 :: w1 :: h0 :: h1 :: (payload ++ rest), f⟩) := rfl
  have hr3 : (Reader.mk ((payload.length + 4) / 2 ^ 16 % 256 ::
      (payload.length + 4) / 2 ^ 8 % 256 :: (payload.length + 4) % 256 ::
      w0 :: w1 :: h0 :: h1 :: (payload ++ rest)) f).read_exact 3 =
      .ok ([(payload.length + 4) / 2 ^ 16 % 256, (payload.length + 4) / 2 ^ 8 % 256,
        (payload.length + 4) % 256], ⟨w0 :: w1 :: h0 :: h1 :: (payload ++ rest), f⟩) := rfl
  have hrw : (Reader.mk (w0 :: w1 :: h0 :: h1 :: (payload ++ rest)) f).read_exact 2 =
      .ok ([w0, w1], ⟨h0 :: h1 :: (payload ++ rest), f⟩) := rfl
  have hrh : (Reader.mk (h0 :: h1 :: (payload ++ rest)) f).read_exact 2 =
      .ok ([h0, h1], ⟨payload ++ rest, f⟩) := rfl
  have hflag : LastInSequenceFlag.try_from (([0xC0] : List Nat).getD 0 0) =
      .ok .firstAndLast := rfl
  have hgl0 : (([(payload.length + 4) / 2 ^ 16 % 256, (payload.length + 4) / 2 ^ 8 % 256,
      (payload.length + 4) % 256] : List Nat)).getD 0 0 =
      (payload.length + 4) / 2 ^ 16 % 256 := rfl
  have hgl1 : (([(payload.length + 4) / 2 ^ 16 % 256, (payload.length + 4) / 2 ^ 8 % 256,
      (payload.length + 4) % 256] : List Nat)).getD 1 0 =
      (payload.length + 4) / 2 ^ 8 % 256 := rfl
  have hgl2 : (([(payload.length + 4) / 2 ^ 16 % 256, (payload.length + 4) / 2 ^ 8 % 256,
      (payload.length + 4) % 256] : List Nat)).getD 2 0 = (payload.length + 4) % 256 := rfl
  have hgw0 : (([w0, w1] : List Nat)).getD 0 0 = w0 := rfl
  have hgw1 : (([w0, w1] : List Nat)).getD 1 0 = w1 := rfl
  have hgh0 : (([h0, h1] : List Nat)).getD 0 0 = h0 := rfl
  have hgh1 : (([h0, h1] : List Nat)).getD 1 0 = h1 := rfl
  have hbe : be24 ((payload.length + 4) / 2 ^ 16 % 256)
      ((payload.length + 4) / 2 ^ 8 % 256) ((payload.length + 4) % 256) =
      payload.length + 4 := be24_decenc _ hlen
  simp only [ods.read_multi, hskip, hr1, hflag, hr3, hgl0, hgl1, hgl2, hrw, hgw0, hgw1,
    hrh, hgh0, hgh1, hbe]
  have hds : (payload.length + 4 + (U64 - 4)) % U64 = payload.length := by
    simp only [U64]; omega
  rw [hds]
  have h11 : (11 + payload.length) % U64 = 11 + payload.length := by
    simp only [U64]; omega
  rw [h11, if_pos rfl]
  unfold Reader.read_exact
  have := readExactGo_append payload rest
  rw [this]

theorem pds_read_ok_length {r : Reader} {seg_size : Nat} {pal : Palette} {r' : Reader}
    (h : pds_read r seg_size = .ok (pal, r')) :
    r'.bytes.length ≤ r.bytes.length ∧ r'.fault = r.fault := by
  unfold pds_read at h
  cases hre : r.read_exact seg_size with
  | error e => simp [hre] at h
  | ok p =>
    obtain ⟨xs, r''⟩ := p
    simp only [hre, Except.ok.injEq, Prod.mk.injEq] at h
    obtain ⟨-, rfl⟩ := h
    obtain ⟨-, h2, h3⟩ := read_exact_ok_length hre
    exact ⟨by omega, h3⟩

theorem ods_read_multi_ok_length {r : Reader} {seg_size : Nat}
    {prev : Option IncompleteObject} {o : ObjectDefinitionSegmentAcc} {r' : Reader}
    (h : ods.read_multi r seg_size prev = .ok (o, r')) :
    r'.bytes.length ≤ r.bytes.length ∧ r'.fault = r.fault := by
  unfold ods.read_multi at h
  split at h
  · -- no partial object pending
    split at h
    · cases h
    · rename_i r1 hsk
      obtain ⟨hl1, hf1⟩ := skip_data_ok_length hsk
      split at h
      · cases h
      · rename_i fb r2 hr1
        obtain ⟨-, hl2, hf2⟩ := read_exact_ok_length hr1
        split at h
        · cases h
        · rename_i flag hfl
          split at h
          · cases h
          · rename_i lb r3 hr3
            obtain ⟨-, hl3, hf3⟩ := read_exact_ok_length hr3
            dsimp only at h
            split at h
            · cases h
            · rename_i wb r4 hrw
              obtain ⟨-, hl4, hf4⟩ := read_exact_ok_length hrw
              split at h
              · cases h
              · rename_i hb r5 hrh
                obtain ⟨-, hl5, hf5⟩ := read_exact_ok_length hrh
                split at h
                · -- FirstAndLast
                  split at h
                  · split at h
                    · cases h
                    · rename_i payload r6 hrd
                      obtain ⟨-, hl6, hf6⟩ := read_exact_ok_length hrd
                      cases h
                      exact ⟨by omega, by rw [hf6, hf5, hf4, hf3, hf2, hf1]⟩
                  · cases h
                · -- First
                  split at h
                  · cases h
                  · rename_i collected r6 hrd
                    obtain ⟨-, hl6, hf6⟩ := read_exact_ok_length hrd
                    cases h
                    exact ⟨by omega, by rw [hf6, hf5, hf4, hf3, hf2, hf1]⟩
                · -- Last
                  cases h
  · -- partial object pending
    split at h
    · cases h
    · rename_i r1 hsk
      obtain ⟨hl1, hf1⟩ := skip_data_ok_length hsk
      split at h
      · cases h
      · rename_i fb r2 hr1
        obtain ⟨-, hl2, hf2⟩ := read_exact_ok_length hr1
        split at h
        · cases h
        · rename_i flag hfl
          split at h
          · -- Last continuation
            split at h
            · cases h
            · rename_i bytes r3 hrd
              obtain ⟨-, hl3, hf3⟩ := read_exact_ok_length hrd
              cases h
              exact ⟨by omega, by rw [hf3, hf2, hf1]⟩
          · cases h

/-- The fuel chosen by `DecodeTimeImage.parse_next` never runs out: each
iteration consumes at least the 13 header bytes. -/
theorem time_image_loop_ne_noFuel :
    ∀ (fuel : Nat) (r : Reader) (st : Option TimePoint) (pal : Option Palette)
      (img : Option RleEncodedImage) (prev : Option IncompleteObject),
      r.bytes.length < fuel →
      time_image_loop fuel r st pal img prev ≠ .noFuel := by
  intro fuel
  induction fuel with
  | zero => intro r st pal img prev h; exact absurd h (Nat.not_lt_zero _)
  | succ fuel ih =>
    intro r st pal img prev h
    cases hh : read_header r with
    | error e => simp [time_image_loop, hh]
    | ok o =>
      cases o with
      | none => simp [time_image_loop, hh]
      | some p =>
        obtain ⟨hdr, r'⟩ := p
        obtain ⟨hl, -⟩ := read_header_some_length hh
        simp only [time_image_loop, hh]
        cases htc : hdr.type_code with
        | pds =>
          cases hp : pds_read r' hdr.size with
          | error e => simp
          | ok q =>
            obtain ⟨pal', r''⟩ := q
            obtain ⟨hl2, -⟩ := pds_read_ok_length hp
            exact ih r'' st (some pal') img prev (by omega)
        | ods =>
          cases ho : ods.read_multi r' hdr.size prev with
          | err e => simp
          | fatal => simp
          | ok q =>
            obtain ⟨oseg, r''⟩ := q
            obtain ⟨hl2, -⟩ := ods_read_multi_ok_length ho
            cases oseg with
            | complete obj =>
              cases pal with
              | none => simp
              | some pl => exact ih r'' st none (some _) none (by omega)
            | incomplete pobj => exact ih r'' st pal img (some pobj) (by omega)
        | endSeg =>
          cases st with
          | some s =>
            cases img with
            | none => simp
            | some i => simp
          | none => exact ih r' _ pal img prev (by omega)
        | pcs =>
          cases hs : skip_segment r' hdr with
          | error e => simp
          | ok r'' =>
            obtain ⟨hl2, -⟩ := skip_segment_ok_length hs
            exact ih r'' st pal img prev (by omega)
        | wds =>
          cases hs : skip_segment r' hdr with
          | error e => simp
          | ok r'' =>
            obtain ⟨hl2, -⟩ := skip_segment_ok_length hs
            exact ih r'' st pal img prev (by omega)

/-- C4: in the timing+image strategy, a complete `ObjectDef` accumulated
while no palette is held fails with the missing-palette error; a closing
(second) `End` segment with no image formed fails with the missing-image
error; and with no `PaletteDef` in the stream, missing-palette is
reached exactly when an object is successfully accumulated first (a
stream whose only segment is a complete `ObjectDef` errs with
missing-palette), otherwise missing-image fires first (a stream of two
bare `End` segments errs with missing-image). -/
theorem claim_C4 :
    (∀ (fuel pts dts w0 w1 h0 h1 : Nat) (payload rest : List Nat) (f : Bool)
      (start : Option TimePoint) (image : Option RleEncodedImage),
      0 < fuel → pts < 2 ^ 32 → 11 + payload.length < 2 ^ 16 →
      time_image_loop fuel
        ⟨segHeaderBytes pts dts 0x15 (11 + payload.length) ++
          (odsBodyFL w0 w1 h0 h1 payload ++ rest), f⟩
        start none image none = .err .missingPalette) ∧
    (∀ (fuel pts dts : Nat) (rest : List Nat) (f : Bool) (s : TimePoint)
      (palette : Option Palette) (prev : Option IncompleteObject),
      0 < fuel → pts < 2 ^ 32 →
      time_image_loop fuel ⟨endSegment pts dts ++ rest, f⟩ (some s) palette none prev =
        .err .missingImage) ∧
    DecodeTimeImage.parse_next
      ⟨segHeaderBytes 0 0 0x15 12 ++ odsBodyFL 0 1 0 1 [0x00], false⟩ =
      .err .missingPalette ∧
    DecodeTimeImage.parse_next ⟨endSegment 90 0 ++ endSegment 180 0, false⟩ =
      .err .missingImage := by
  refine ⟨?_, ?_, ?_, ?_⟩
  · intro fuel pts dts w0 w1 h0 h1 payload rest f start image hfuel hp hsize
    cases fuel with
    | zero => omega
    | succ fuel =>
      have hhdr := read_header_seg pts dts 0x15 (11 + payload.length) .ods
        (odsBodyFL w0 w1 h0 h1 payload ++ rest) f hp hsize rfl
      have hlen : payload.length + 4 < 2 ^ 24 := by omega
      have hods := ods_read_multi_fl w0 w1 h0 h1 payload rest f hlen
      simp only [time_image_loop, hhdr, hods]
  · intro fuel pts dts rest f s palette prev hfuel hp
    cases fuel with
    | zero => omega
    | succ fuel =>
      simp only [time_image_loop, read_header_endSegment pts dts rest f hp]
  · rfl
  · rfl

/-- Closed witness for C4 at concrete streams: a lone 25-byte complete
`ObjectDef` segment with no palette held, and an `End` closing a display
set with a start pending but no image. -/
theorem claim_C4_witness :
    time_image_loop 26
      ⟨segHeaderBytes 0 0 0x15 (11 + [0x00].length) ++
        (odsBodyFL 0 1 0 1 [0x00] ++ []), false⟩
      none none none none = .err .missingPalette ∧
    time_image_loop 14 ⟨endSegment 180 0 ++ [], false⟩
      (some (TimePoint.from_msecs 1)) none none none = .err .missingImage :=
  ⟨claim_C4.1 26 0 0 0 1 0 1 [0x00] [] false none none (by norm_num) (by norm_num)
      (by norm_num),
   claim_C4.2.1 14 180 0 [] false (TimePoint.from_msecs 1) none none (by norm_num)
      (by norm_num)⟩

/-- C5 counterexample: the trailing assertions of
`DecodeTimeImage::parse_next` *can* be made to fail by input data alone:
a single well-formed `PaletteDef` segment followed by a clean
end-of-stream leaves the palette slot filled when the loop exits, so
`assert!(palette.is_none())` fails — a panic (`fatal`) on a pure-data
input, refuting the claim that input data alone cannot trip the
assertions. -/
theorem claim_C5_counterexample :
    DecodeTimeImage.parse_next ⟨segHeaderBytes 0 0 0x14 1 ++ [0xAB], false⟩ = .fatal := rfl

/-- A well-formed single-display-set stream: `End`, `PaletteDef`,
complete `ObjectDef`, `End`. -/
def validPgsStream : List Nat :=
  endSegment 90 0 ++
    ((segHeaderBytes 0 0 0x14 1 ++ [0xAB]) ++
      ((segHeaderBytes 0 0 0x15 12 ++ odsBodyFL 0 1 0 1 [0x00]) ++ endSegment 180 0))

/-- C5 as amended: the end-of-call conditions are indeed enforced by the
trailing assertions — whenever `DecodeTimeImage::parse_next` returns
without an error and without panicking, the held palette has been
consumed and no partial object is pending — but the assertions *can* be
made to fail by input data alone (see the counterexample), so they do
not hold unconditionally on every non-`Err` return. -/
theorem claim_C5_amended :
    ∀ (r : Reader) (sub : Option Subtitle),
      DecodeTimeImage.parse_next r = .ok sub →
      time_image_loop (r.bytes.length + 1) r none none none none = .ok (sub, none, none) := by
  intro r sub h
  unfold DecodeTimeImage.parse_next at h
  cases hl : time_image_loop (r.bytes.length + 1) r none none none none with
  | err e => simp only [hl] at h; cases h
  | fatal => simp only [hl] at h; cases h
  | noFuel => simp only [hl] at h; cases h
  | ok t =>
    obtain ⟨sub', pal, prev⟩ := t
    simp only [hl] at h
    cases pal with
    | some p => cases h
    | none =>
      cases prev with
      | some p => cases h
      | none => cases h; rfl

/-- Closed witness for the amended C5: on a well-formed stream the call
returns `Ok(Some(..))` and the loop's final palette and partial-object
slots are both `None`. -/
theorem claim_C5_witness :
    time_image_loop (validPgsStream.length + 1) ⟨validPgsStream, false⟩
      none none none none =
      .ok (some (TimeSpan.new (TimePoint.from_msecs 1) (TimePoint.from_msecs 2),
        RleEncodedImage.new 1 1 ⟨[0xAB]⟩ [0x00]), none, none) :=
  claim_C5_amended ⟨validPgsStream, false⟩
    (some (TimeSpan.new (TimePoint.from_msecs 1) (TimePoint.from_msecs 2),
      RleEncodedImage.new 1 1 ⟨[0xAB]⟩ [0x00])) (by rfl)

end Subtile
